import Mathlib

/-!
Shallow embedding of the file-staging, parsing and upload logic of the
YouTube content-production pipeline scripts, together with proofs of the
behavioural properties claimed for them.

Python strings are modelled as lists of characters (`PyStr`); filesystem
state and OS/network interaction are passed in explicitly (rename
outcomes, HTTP chunk outcomes, poll results), so every definition is an
executable function of its inputs, translated clause by clause from the
scripts.
-/

/-- Python strings are modelled as lists of characters. -/
abbrev PyStr := List Char

namespace Pipeline

/-- `s.endsWith pat` on character lists: models the regex
`re.match(r'.*\.txt$', name)` test used by the scanners, which on
newline-free file names is exactly "name ends with `.txt`". -/
def strEndsWith (s pat : PyStr) : Bool :=
  pat.reverse.isPrefixOf s.reverse

/-- Python's substring containment test `pat in s`. -/
def strContains (pat : PyStr) : PyStr → Bool
  | [] => pat.isEmpty
  | c :: cs => pat.isPrefixOf (c :: cs) || strContains pat cs

/-- Lexicographic code-point comparison, the order Python's `sorted`
uses on strings. -/
def pyStrLe : PyStr → PyStr → Bool
  | [], _ => true
  | _ :: _, [] => false
  | a :: as, b :: bs =>
    if a.toNat < b.toNat then true
    else if b.toNat < a.toNat then false
    else pyStrLe as bs

/-- `os.path.join(root, name)`: inserts a slash unless `root` is empty or
already ends with one. -/
def pathJoin (root name : PyStr) : PyStr :=
  if root = [] then name
  else if strEndsWith root "/".toList then root ++ name
  else root ++ "/".toList ++ name

/-- Insert into a `pyStrLe`-sorted list, keeping earlier elements first
among equals. -/
def insertSorted (x : PyStr) : List PyStr → List PyStr
  | [] => [x]
  | y :: ys => if pyStrLe x y then x :: y :: ys else y :: insertSorted x ys

/-- Python's `sorted` on a list of strings: a stable sort by `pyStrLe`,
modelled as insertion sort. -/
def pySorted : List PyStr → List PyStr
  | [] => []
  | x :: xs => insertSorted x (pySorted xs)

/-- The name filter of `get_unprocessed_txt_files` in
`Video_titles_generator/titles_generator.py`:
`re.match(r'.*\.txt$', name) and '_title' not in name`. -/
def titlesGenScanKeep (name : PyStr) : Bool :=
  strEndsWith name ".txt".toList && !(strContains "_title".toList name)

/-- `get_unprocessed_txt_files` of the titles generator: walk the tree
(given as the `os.walk` sequence of `(root, files)` pairs), keep `.txt`
files without the `_title` marker, join each with its root, and sort. -/
def get_unprocessed_txt_files (walk : List (PyStr × List PyStr)) : List PyStr :=
  pySorted (walk.flatMap fun rf => (rf.2.filter titlesGenScanKeep).map (pathJoin rf.1))

/-- `get_unprocessed_txt_files` of
`Youtube_shorts_video_extractor/shorts_extractor.py`: the body only tests
`re.match(r'.*\.txt$', name)` — despite its docstring, no marker suffix is
excluded. -/
def shorts_get_unprocessed_txt_files (walk : List (PyStr × List PyStr)) : List PyStr :=
  pySorted (walk.flatMap fun rf => (rf.2.filter fun name => strEndsWith name ".txt".toList).map (pathJoin rf.1))

/-- Split a name at its LAST dot: `splitLastDot cs = some (before, after)`
with `cs = before ++ '.' :: after` and `after` dot-free; `none` when there
is no dot.  This is the `name.rfind('.')` computation behind
`pathlib.PurePath.stem`/`.suffix`. -/
def splitLastDot : PyStr → Option (PyStr × PyStr)
  | [] => none
  | c :: cs =>
    match splitLastDot cs with
    | some p => some (c :: p.1, p.2)
    | none => if c = '.' then some ([], cs) else none

/-- `pathlib.PurePath.suffix` of a file name: CPython returns
`name[i:]` for `i = name.rfind('.')` when `0 < i < len(name) - 1`, else
the empty string. -/
def pySuffix (name : PyStr) : PyStr :=
  match splitLastDot name with
  | some (before, after) =>
    if before = [] ∨ after = [] then [] else '.' :: after
  | none => []

/-- `pathlib.PurePath.stem` of a file name: `name[:i]` under the same
condition as `pySuffix`, else the whole name. -/
def pyStem (name : PyStr) : PyStr :=
  match splitLastDot name with
  | some (before, after) =>
    if before = [] ∨ after = [] then name else before
  | none => name

/-- A `pathlib.Path`, reduced to the parts the marker mutators use:
the parent directory and the final name. -/
structure PyPath where
  parent : PyStr
  name : PyStr
deriving DecidableEq, Repr

/-- The target path computed by `mark_file_as_processed`:
`path.parent / (path.stem + token + path.suffix)` — the token goes in
front of the extension, the parent is unchanged. -/
def markTarget (token : PyStr) (p : PyPath) : PyPath :=
  ⟨p.parent, pyStem p.name ++ token ++ pySuffix p.name⟩

/-- An OS error raised by `Path.rename` / `os.rename`. -/
inductive OsError
  | fileExists
  | notPermitted
  | other
deriving DecidableEq, Repr

/-- The outcome the operating system gives one `rename` call. -/
abbrev RenameOutcome := Except OsError Unit

/-- `mark_file_as_processed` of the titles generator: compute the
`_title`-marked sibling name and perform one rename.  There is no
`try`/`except`: an OS error propagates to the caller, and there is no
retry (exactly one rename outcome is consumed). -/
def mark_file_as_processed (p : PyPath) (rename : PyPath → PyPath → RenameOutcome) :
    Except OsError PyPath := do
  let target := markTarget "_title".toList p
  let _ ← rename p target
  pure target

/-- `mark_file_as_used` of the shorts extractor: identical shape with the
`_shorts` token. -/
def mark_file_as_used (p : PyPath) (rename : PyPath → PyPath → RenameOutcome) :
    Except OsError PyPath := do
  let target := markTarget "_shorts".toList p
  let _ ← rename p target
  pure target

/-- `mark_as_uploaded` of `Youtube_uploader/youtube_uploader.py`: appends
`_uploaded` to the directory name and renames, but wraps the body in
`try`/`except Exception`, printing a warning and returning `False` on any
error — the error does not reach the caller. -/
def mark_as_uploaded (directoryPath : PyPath) (rename : PyPath → PyPath → RenameOutcome) :
    Bool :=
  let newPath : PyPath := ⟨directoryPath.parent, directoryPath.name ++ "_uploaded".toList⟩
  match rename directoryPath newPath with
  | .ok _ => true
  | .error _ => false

end Pipeline

namespace Pipeline

/-! ### Resumable upload (`Youtube_uploader/youtube_uploader.py`) -/

/-- Retry configuration of the uploader. -/
def MAX_RETRIES : Nat := 10

/-- HTTP status codes the uploader retries on. -/
def RETRIABLE_STATUS_CODES : List Nat := [500, 502, 503, 504]

/-- The non-`None` response a `next_chunk` call can hand back: a JSON
object that either carries an `id` field or does not. -/
inductive ChunkResponse
  | withId (id : PyStr)
  | withoutId
deriving DecidableEq, Repr

/-- What one `request.next_chunk()` call does: return `(status, response)`
(`response = none` is a mid-upload progress chunk), raise an `HttpError`
with a status code, or raise one of `RETRIABLE_EXCEPTIONS`. -/
inductive ChunkOutcome
  | chunk (response : Option ChunkResponse)
  | httpError (status : Nat)
  | retriableException
deriving DecidableEq, Repr

/-- How a `resumable_upload` run ends. -/
inductive UploadOutcome
  | success (id : PyStr)
  | unexpectedResponse
  | httpFailure (status : Nat)
  | retriesExceeded
  | exhausted
deriving DecidableEq, Repr

/-- A finished run: its outcome, the number of `next_chunk` attempts
made, and the `max_sleep = 2 ** retry` bound of each backoff sleep
executed (the actual sleep is `random.random() * max_sleep`, so the bound
is the deterministic part of the delay). -/
structure UploadRun where
  outcome : UploadOutcome
  attempts : Nat
  sleepBounds : List Nat
deriving DecidableEq, Repr

/-- The `while response is None` loop of `resumable_upload`, one
`next_chunk` outcome per iteration.  `errorSet` models the `error`
variable, which the source never resets to `None` once assigned, so after
a first retriable error even a plain progress chunk re-enters the
retry/sleep branch. -/
def resumableUploadGo (timeoutScript : List ChunkOutcome) (retry : Nat) (errorSet : Bool)
    (attempts : Nat) (sleeps : List Nat) : UploadRun :=
  match timeoutScript with
  | [] => ⟨.exhausted, attempts, sleeps.reverse⟩
  | o :: rest =>
    match o with
    | .chunk (some (.withId i)) => ⟨.success i, attempts + 1, sleeps.reverse⟩
    | .chunk (some .withoutId) => ⟨.unexpectedResponse, attempts + 1, sleeps.reverse⟩
    | .chunk none =>
      if errorSet then
        if retry + 1 > MAX_RETRIES then ⟨.retriesExceeded, attempts + 1, sleeps.reverse⟩
        else resumableUploadGo rest (retry + 1) true (attempts + 1) (2 ^ (retry + 1) :: sleeps)
      else resumableUploadGo rest retry false (attempts + 1) sleeps
    | .httpError s =>
      if s ∈ RETRIABLE_STATUS_CODES then
        if retry + 1 > MAX_RETRIES then ⟨.retriesExceeded, attempts + 1, sleeps.reverse⟩
        else resumableUploadGo rest (retry + 1) true (attempts + 1) (2 ^ (retry + 1) :: sleeps)
      else ⟨.httpFailure s, attempts + 1, sleeps.reverse⟩
    | .retriableException =>
      if retry + 1 > MAX_RETRIES then ⟨.retriesExceeded, attempts + 1, sleeps.reverse⟩
      else resumableUploadGo rest (retry + 1) true (attempts + 1) (2 ^ (retry + 1) :: sleeps)

/-- `resumable_upload`: `response = None`, `error = None`, `retry = 0`,
then the loop above. -/
def resumable_upload (script : List ChunkOutcome) : UploadRun :=
  resumableUploadGo script 0 false 0 []

/-! ### CleanVoice polling loop
(`CleanvoiceAI_audio_enhancer/cleanvoiceai_audio_enhancer.py`) -/

/-- What one `check_status` round gives `wait_for_completion`: a terminal
`SUCCESS` payload (with or without a `download_url`), `FAILURE`, one of
the in-progress statuses `PENDING`/`STARTED`/`RETRY`, some unknown status
string, or a "Status check failed" exception (which the loop swallows,
sleeps on, and continues past). -/
inductive PollResult
  | success (downloadUrl : Option PyStr)
  | failure
  | processing
  | unknown
  | checkFailed
deriving DecidableEq, Repr

/-- How a `wait_for_completion` run ends. -/
inductive WaitOutcome
  | downloadUrl (u : PyStr)
  | noDownloadUrl
  | jobFailed
  | unknownStatus
  | timedOut
  | exhausted
deriving DecidableEq, Repr

/-- A finished polling run: its outcome and the sleeps it executed, in
half-second units (the source grows `check_interval` by `0.5`, so halves
make every quantity a natural number). -/
structure WaitRun where
  outcome : WaitOutcome
  sleeps : List Nat
deriving DecidableEq, Repr

/-- The `while time.time() - start_time < timeout` loop of
`wait_for_completion`.  `elapsed` and `interval` are in half-seconds;
time spent inside `check_status` itself is not modelled, only the sleeps.
In the `processing` branch the loop sleeps the CURRENT interval, then
grows it by one half-second up to the 10-second (= 20 half-second) cap;
in the `checkFailed` branch it sleeps without growing the interval. -/
def waitGo (polls : List PollResult) (timeoutHalf : Nat) (elapsed : Nat) (interval : Nat)
    (sleeps : List Nat) : WaitRun :=
  if elapsed < timeoutHalf then
    match polls with
    | [] => ⟨.exhausted, sleeps.reverse⟩
    | p :: rest =>
      match p with
      | .success (some u) => ⟨.downloadUrl u, sleeps.reverse⟩
      | .success none => ⟨.noDownloadUrl, sleeps.reverse⟩
      | .failure => ⟨.jobFailed, sleeps.reverse⟩
      | .processing =>
        waitGo rest timeoutHalf (elapsed + interval)
          (if interval < 20 then min (interval + 1) 20 else interval) (interval :: sleeps)
      | .unknown => ⟨.unknownStatus, sleeps.reverse⟩
      | .checkFailed => waitGo rest timeoutHalf (elapsed + interval) interval (interval :: sleeps)
  else ⟨.timedOut, sleeps.reverse⟩

/-- `wait_for_completion`: `check_interval = 2` seconds (4 half-seconds),
`timeout` given in seconds (default 1800). -/
def wait_for_completion (polls : List PollResult) (timeout : Nat) : WaitRun :=
  waitGo polls (2 * timeout) 0 4 []

end Pipeline

namespace Pipeline

/-! ### Timestamp dictionary extraction
(`Video_timestamps_extractor/timestamps_extractor.py`) -/

/-- Python `\s` whitespace (space, tab, LF, CR, VT, FF). -/
def isPySpace (c : Char) : Bool :=
  c = ' ' || c = '\t' || c = '\n' || c = '\r' || c.toNat = 11 || c.toNat = 12

/-- `str.strip()`. -/
def pyStrip (s : PyStr) : PyStr :=
  ((s.dropWhile isPySpace).reverse.dropWhile isPySpace).reverse

/-- One pass of `re.sub(pat + r'\s*', '', text)` for a literal, nonempty
`pat`: delete every (leftmost, non-overlapping) occurrence of `pat`
together with the whitespace run after it.  Fuel is the text length. -/
def subPatWsGo (pat : PyStr) : Nat → PyStr → PyStr
  | 0, cs => cs
  | _ + 1, [] => []
  | fuel + 1, c :: cs =>
    if pat ≠ [] ∧ pat.isPrefixOf (c :: cs) then
      subPatWsGo pat fuel ((List.drop pat.length (c :: cs)).dropWhile isPySpace)
    else c :: subPatWsGo pat fuel cs

/-- `re.sub(pat + r'\s*', '', text)` for a literal pattern. -/
def reSubPatternWs (pat text : PyStr) : PyStr :=
  subPatWsGo pat text.length text

/-- The preprocessing of `_extract_dictionary`: strip ```` ```python ````
fences, then bare ```` ``` ```` fences, then `str.strip()`. -/
def fenceStripped (text : PyStr) : PyStr :=
  pyStrip (reSubPatternWs "```".toList (reSubPatternWs "```python".toList text))

/-- A Python literal value, restricted to the grammar the timestamp
stage's prompt requests and its `eval` call is expected to produce:
string literals, tuples and dictionaries. -/
inductive PyVal
  | str (s : PyStr)
  | tuple (elems : List PyVal)
  | dict (entries : List (PyVal × PyVal))
deriving Repr

/-- Read a string literal body up to the closing quote `q` (the stage's
time-code strings contain no escapes). -/
def readStrLit (q : Char) : PyStr → Option (PyStr × PyStr)
  | [] => none
  | c :: cs =>
    if c = q then some ([], cs)
    else (readStrLit q cs).map fun p => (c :: p.1, p.2)

mutual

/-- Recursive-descent parser for the restricted literal grammar; models
`eval` on the literals this stage consumes.  Fuel bounds the nesting. -/
def parsePyVal : Nat → PyStr → Option (PyVal × PyStr)
  | 0, _ => none
  | fuel + 1, cs =>
    match (cs.dropWhile isPySpace) with
    | [] => none
    | c :: rest =>
      if c = '"' ∨ c = '\'' then
        (readStrLit c rest).map fun p => (.str p.1, p.2)
      else if c = '(' then
        (parseElems fuel rest []).map fun p => (.tuple p.1, p.2)
      else if c = '{' then
        (parseEntries fuel rest []).map fun p => (.dict p.1, p.2)
      else none

/-- Comma-separated tuple elements up to the closing parenthesis. -/
def parseElems : Nat → PyStr → List PyVal → Option (List PyVal × PyStr)
  | 0, _, _ => none
  | fuel + 1, cs, acc =>
    match (cs.dropWhile isPySpace) with
    | ')' :: rest => some (acc.reverse, rest)
    | cs' =>
      match parsePyVal fuel cs' with
      | none => none
      | some (v, cs'') =>
        match (cs''.dropWhile isPySpace) with
        | ',' :: rest => parseElems fuel rest (v :: acc)
        | ')' :: rest => some ((v :: acc).reverse, rest)
        | _ => none

/-- Comma-separated `key : value` entries up to the closing brace. -/
def parseEntries : Nat → PyStr → List (PyVal × PyVal) →
    Option (List (PyVal × PyVal) × PyStr)
  | 0, _, _ => none
  | fuel + 1, cs, acc =>
    match (cs.dropWhile isPySpace) with
    | '}' :: rest => some (acc.reverse, rest)
    | cs' =>
      match parsePyVal fuel cs' with
      | none => none
      | some (k, cs'') =>
        match (cs''.dropWhile isPySpace) with
        | ':' :: afterColon =>
          match parsePyVal fuel afterColon with
          | none => none
          | some (v, cs3) =>
            match (cs3.dropWhile isPySpace) with
            | ',' :: rest => parseEntries fuel rest ((k, v) :: acc)
            | '}' :: rest => some (((k, v) :: acc).reverse, rest)
            | _ => none
        | _ => none

end

/-- `eval(text)` on the restricted literal grammar: the whole input (up
to surrounding whitespace) must be one literal. -/
def pyEvalLiteral (s : PyStr) : Option PyVal :=
  match parsePyVal (s.length + 1) s with
  | some (v, rest) => if rest.dropWhile isPySpace = [] then some v else none
  | none => none

/-- The matches of `re.finditer(r'\{[^}]+\}', text)`: leftmost,
non-overlapping `{...}` spans with at least one non-`}` character
between the braces.  Fuel is the text length. -/
def braceMatchesGo : Nat → PyStr → List PyStr
  | 0, _ => []
  | _ + 1, [] => []
  | fuel + 1, c :: cs =>
    if c = '{' then
      match cs.dropWhile (· ≠ '}') with
      | '}' :: rest =>
        if cs.takeWhile (· ≠ '}') = [] then braceMatchesGo fuel cs
        else ('{' :: cs.takeWhile (· ≠ '}') ++ ['}']) :: braceMatchesGo fuel rest
      | _ => braceMatchesGo fuel cs
    else braceMatchesGo fuel cs

/-- All `\{[^}]+\}` matches of a text. -/
def braceMatches (text : PyStr) : List PyStr :=
  braceMatchesGo text.length text

/-- The fallback loop of `_extract_dictionary`: `eval` each brace match
and return the first one that yields a dict. -/
def firstDictMatch : List PyStr → Option (List (PyVal × PyVal))
  | [] => none
  | m :: ms =>
    match pyEvalLiteral m with
    | some (.dict d) => some d
    | _ => firstDictMatch ms

/-- `_extract_dictionary`: strip code fences and whitespace, try to
`eval` the whole text as a dict, otherwise try each `\{[^}]+\}` match,
otherwise return `None`. -/
def extract_dictionary (text : PyStr) : Option (List (PyVal × PyVal)) :=
  let t := fenceStripped text
  match pyEvalLiteral t with
  | some (.dict d) => some d
  | _ => firstDictMatch (braceMatches t)

/-! ### Best-title selection (`Video_titles_generator/titles_generator.py`) -/

/-- `re.search(r'\d+', s)`: the first maximal run of digits, if any. -/
def reSearchDigits : PyStr → Option PyStr
  | [] => none
  | c :: cs =>
    if c.isDigit then some (c :: cs.takeWhile Char.isDigit)
    else reSearchDigits cs

/-- `int(...)` on a digit string. -/
def digitsToNat (ds : PyStr) : Nat :=
  ds.foldl (fun n c => 10 * n + (c.toNat - '0'.toNat)) 0

/-- The model call inside `select_best_title` either returns a response
text or raises (carrying the printed error text). -/
abbrev ModelResponse := Except PyStr PyStr

/-- `select_best_title`: empty list ⇒ `""`; single title ⇒ that title;
otherwise ask the model for a number, extract the first digit run, use
`titles[int - 1]` when `0 <= int - 1 < len(titles)`, and fall back to
`titles[0]` on no digits, an out-of-range index, or an exception. -/
def select_best_title (titles : List PyStr) (response : ModelResponse) : PyStr :=
  match titles with
  | [] => []
  | [t] => t
  | t0 :: _ :: _ =>
    match response with
    | .error _ => t0
    | .ok text =>
      match reSearchDigits (pyStrip text) with
      | some ds =>
        let index : Int := (digitsToNat ds : Int) - 1
        if 0 ≤ index ∧ index < titles.length then titles.getD index.toNat []
        else t0
      | none => t0

end Pipeline

namespace Pipeline

/-! ### Stage entry points and the missing-API-key path -/

/-- Console channel a message is written to. -/
inductive Channel
  | stdout
  | stderr
deriving DecidableEq, Repr

/-- An observable action of a stage script, in order of occurrence. -/
inductive Event
  | print (ch : Channel) (msg : PyStr)
  | networkCall
  | fsMutation
  | exitEvent (code : Nat)
deriving DecidableEq, Repr

/-- `main` of `Video_timestamps_extractor/timestamps_extractor.py` up to
the API-key checks: print the banner, read `GEMINI_API_KEY` and
`ASSEMBLYAI_API_KEY` from the environment, and on a missing key print the
error with plain `print` (stdout) and `sys.exit(1)`; with both keys
present the run continues into the analyzer pipeline, abstracted as
`pipeline`. -/
def ts_extractor_main (gemini assemblyai : Option PyStr) (pipeline : List Event) :
    List Event :=
  Event.print .stdout "Video Timestamp Analyzer".toList ::
  match gemini with
  | none =>
    [Event.print .stdout "Error: GEMINI_API_KEY not found in .env file".toList,
     Event.exitEvent 1]
  | some _ =>
    match assemblyai with
    | none =>
      [Event.print .stdout "Error: ASSEMBLYAI_API_KEY not found in .env file".toList,
       Event.exitEvent 1]
    | some _ => pipeline

/-- Python truthiness of an optional string (`None` and `""` are falsy). -/
def truthy : Option PyStr → Bool
  | some (_ :: _) => true
  | _ => false

/-- Python's `a or b` on optional strings. -/
def pyOrStr (a b : Option PyStr) : Option PyStr :=
  if truthy a then a else b

/-- `main` of `src/Video_titles_generator/titles_generator.py` around the
generator construction: `YouTubeTitleGenerator.__init__` sets
`self.api_key = api_key or os.getenv("GEMINI_API_KEY")` and raises
`ValueError` when it is falsy; `main` catches that, prints
`f"Error: {e}"` to stderr and exits 1.  With a key present the run
continues into `process`, abstracted as `pipeline`. -/
def titles_generator_main (apiKeyArg geminiEnv : Option PyStr) (pipeline : List Event) :
    List Event :=
  if truthy (pyOrStr apiKeyArg geminiEnv) then pipeline
  else
    [Event.print .stderr "Error: Google Gemini API key required.".toList,
     Event.exitEvent 1]

/-- Does an event write to stderr? -/
def isStderrPrint : Event → Bool
  | .print .stderr _ => true
  | _ => false

/-- Is an event a network call or a filesystem mutation? -/
def isWorkEvent : Event → Bool
  | .networkCall => true
  | .fsMutation => true
  | _ => false

/-! ### Upload metadata body (`Youtube_uploader/youtube_uploader.py`) -/

/-- The `snippet` part of the upload request body. -/
structure Snippet where
  title : PyStr
  description : PyStr
  tags : List PyStr
  categoryId : PyStr
deriving DecidableEq, Repr

/-- The full request body `upload_video` builds. -/
structure RequestBody where
  snippet : Snippet
  privacyStatus : PyStr
  selfDeclaredMadeForKids : Bool
deriving DecidableEq, Repr

/-- The `body` dictionary of `upload_video`: `title[:100]`,
`description[:5000]`, tags and category as given. -/
def upload_video_body (title description : PyStr) (tags : List PyStr)
    (categoryId privacyStatus : PyStr) : RequestBody :=
  ⟨⟨title.take 100, description.take 5000, tags, categoryId⟩, privacyStatus, false⟩

/-- `upload_video`: check the file exists (else the raised
`FileNotFoundError` is caught and `None` returned), build the metadata
body, then hand the request to `resumable_upload`; returns the video id
on success together with the body that was sent.  The body is computed
before the media upload object or the insert request exist, so it cannot
depend on the chunk outcomes. -/
def upload_video (fileExists : Bool) (title description : PyStr) (tags : List PyStr)
    (categoryId privacyStatus : PyStr) (script : List ChunkOutcome) :
    Option PyStr × Option RequestBody :=
  if fileExists then
    let body := upload_video_body title description tags categoryId privacyStatus
    match (resumable_upload script).outcome with
    | .success i => (some i, some body)
    | _ => (none, some body)
  else (none, none)

end Pipeline

namespace Pipeline

/-- C1: for a directory holding both `foo.txt` and `foo_title.txt`, the
titles generator's scanner keeps `foo.txt` and drops `foo_title.txt`,
but the shorts extractor's scanner — one of the instances the claim
quantifies over — returns the marker-suffixed `foo_title.txt` as a
candidate as well, contradicting both the claim and that function's own
docstring. -/
theorem scanner_marker_suffix_exclusion_divergence :
    get_unprocessed_txt_files
        [("dir".toList, ["foo.txt".toList, "foo_title.txt".toList])]
      = ["dir/foo.txt".toList]
    ∧ "foo.txt".toList ∈ (["foo.txt".toList, "foo_title.txt".toList].filter titlesGenScanKeep)
    ∧ shorts_get_unprocessed_txt_files
        [("dir".toList, ["foo.txt".toList, "foo_title.txt".toList])]
      = ["dir/foo.txt".toList, "dir/foo_title.txt".toList] := by
  refine ⟨?_, ?_, ?_⟩ <;> decide

/-- C2 counterexample: `mark_as_uploaded` does not propagate a failing
rename — whether the target already exists or the rename is not
permitted, it returns the ordinary value `False` and the caller never
sees the OS error. -/
theorem mark_as_uploaded_swallows_os_error :
    mark_as_uploaded ⟨"base".toList, "pkg".toList⟩
        (fun _ _ => .error .fileExists) = false
    ∧ mark_as_uploaded ⟨"base".toList, "pkg".toList⟩
        (fun _ _ => .error .notPermitted) = false := by
  exact ⟨rfl, rfl⟩

/-- C2 (amended): `mark_file_as_processed` and `mark_file_as_used`
propagate the OS error of their single rename and never retry, while
`mark_as_uploaded` catches any rename error and returns `False`
(also without retrying); on a successful rename each returns the marked
path (resp. `True`). -/
theorem marker_mutation_error_propagation :
    (∀ (p : PyPath) (e : OsError),
      mark_file_as_processed p (fun _ _ => .error e) = .error e)
    ∧ (∀ (p : PyPath),
      mark_file_as_processed p (fun _ _ => .ok ())
        = .ok (markTarget "_title".toList p))
    ∧ (∀ (p : PyPath) (e : OsError),
      mark_file_as_used p (fun _ _ => .error e) = .error e)
    ∧ (∀ (p : PyPath) (e : OsError),
      mark_as_uploaded p (fun _ _ => .error e) = false)
    ∧ (∀ (p : PyPath),
      mark_as_uploaded p (fun _ _ => .ok ()) = true) := by
  exact ⟨fun _ _ => rfl, fun _ => rfl, fun _ _ => rfl, fun _ _ => rfl, fun _ => rfl⟩

/-- C5: with titles `["A", "B", "C"]`, a model response of `"2"` selects
`"B"`; a response with no digits, an out-of-range number (`"9"`, `"0"`),
or a raised exception all fall back to `titles[0] = "A"`. -/
theorem select_best_title_literal_scenario :
    select_best_title ["A".toList, "B".toList, "C".toList] (.ok "2".toList)
      = "B".toList
    ∧ select_best_title ["A".toList, "B".toList, "C".toList]
        (.ok "pick whichever you like".toList) = "A".toList
    ∧ select_best_title ["A".toList, "B".toList, "C".toList] (.ok "9".toList)
      = "A".toList
    ∧ select_best_title ["A".toList, "B".toList, "C".toList] (.ok "0".toList)
      = "A".toList
    ∧ select_best_title ["A".toList, "B".toList, "C".toList]
        (.error "quota exceeded".toList) = "A".toList := by
  refine ⟨?_, ?_, ?_, ?_, ?_⟩ <;> decide

end Pipeline

namespace Pipeline

/-- C10: `select_best_title` is total and closed over its titles list:
the empty list gives `""` whatever the model does, and for a non-empty
list the result is always an element of the list — the extracted index
is bounds-checked, so no title outside the list is ever produced. -/
theorem select_best_title_total_and_closed :
    (∀ r : ModelResponse, select_best_title [] r = [])
    ∧ (∀ (titles : List PyStr) (r : ModelResponse), titles ≠ [] →
        select_best_title titles r ∈ titles) := by
  constructor
  · intro r; rfl
  · intro titles r h
    match titles with
    | [] => exact absurd rfl h
    | [t] => simp [select_best_title]
    | t0 :: t1 :: ts =>
      cases r with
      | error e => simp [select_best_title]
      | ok text =>
        simp only [select_best_title]
        cases hd : reSearchDigits (pyStrip text) with
        | none => simp
        | some ds =>
          split
          next =>
            rename_i ds2 hds2
            injection hds2 with hds2
            subst hds2
            split
            next hcond =>
              have hlt : ((digitsToNat ds : Int) - 1).toNat < (t0 :: t1 :: ts).length := by
                have h2 := hcond.2
                simp only [List.length_cons] at h2 ⊢
                omega
              rw [List.getD_eq_getElem _ _ hlt]
              exact List.getElem_mem hlt
            next =>
              exact List.mem_cons_self _ _
          next hds2 =>
            simp at hds2

/-- Closed witness for the total-and-closed theorem at a concrete
three-title list and response. -/
theorem select_best_title_total_and_closed_witness :
    select_best_title ["A".toList, "B".toList, "C".toList] (.ok "3".toList)
      ∈ ["A".toList, "B".toList, "C".toList] :=
  select_best_title_total_and_closed.2
    ["A".toList, "B".toList, "C".toList] (.ok "3".toList) (by decide)

/-- Inversion for `splitLastDot`: a successful split reassembles to the
input. -/
theorem splitLastDot_eq (cs b a : PyStr) (h : splitLastDot cs = some (b, a)) :
    cs = b ++ '.' :: a := by
  induction cs generalizing b a with
  | nil => simp [splitLastDot] at h
  | cons c cs ih =>
    simp only [splitLastDot] at h
    cases hs : splitLastDot cs with
    | some p =>
      rw [hs] at h
      simp only [Option.some.injEq, Prod.mk.injEq] at h
      obtain ⟨hb, ha⟩ := h
      subst hb; subst ha
      have := ih p.1 p.2 (by rw [hs])
      simp [this]
    | none =>
      rw [hs] at h
      simp at h
      obtain ⟨hc, hb, ha⟩ := h
      subst hc; subst hb; subst ha
      simp

/-- `splitLastDot` finds the dot separating a dot-free tail. -/
theorem splitLastDot_append (xs ys : PyStr) (h : splitLastDot ys = none) :
    splitLastDot (xs ++ '.' :: ys) = some (xs, ys) := by
  induction xs with
  | nil => simp [splitLastDot, h]
  | cons x xs ih => simp [splitLastDot, ih]

/-- `markTarget` on a name of the shape `st ++ ".txt"` inserts the token
between stem and extension. -/
theorem markTarget_txt (parent st token : PyStr) (hst : st ≠ []) :
    markTarget token ⟨parent, st ++ ".txt".toList⟩
      = ⟨parent, st ++ token ++ ".txt".toList⟩ := by
  have htxt : splitLastDot "txt".toList = none := by decide
  have hsplit : splitLastDot (st ++ ".txt".toList) = some (st, "txt".toList) :=
    splitLastDot_append st "txt".toList htxt
  have hcond : ¬(st = [] ∨ ("txt".toList : PyStr) = []) := by
    simp [hst]
  simp only [markTarget, pyStem, pySuffix, hsplit, if_neg hcond]
  simp

end Pipeline

namespace Pipeline

/-- C6: the marker mutation is not idempotent.  For any parent and any
nonempty stem `st`, marking `st.txt` renames it to the sibling
`st_title.txt` (same parent, extension `.txt` preserved, token inserted
before the extension), and marking the already-marked result again
yields `st_title_title.txt` — a second suffix segment; the marked name
always differs from the unmarked one. -/
theorem mark_file_as_processed_not_idempotent :
    ∀ (parent st : PyStr), st ≠ [] →
      mark_file_as_processed ⟨parent, st ++ ".txt".toList⟩ (fun _ _ => .ok ())
        = .ok ⟨parent, st ++ "_title.txt".toList⟩
      ∧ mark_file_as_processed ⟨parent, st ++ "_title.txt".toList⟩ (fun _ _ => .ok ())
        = .ok ⟨parent, st ++ "_title_title.txt".toList⟩
      ∧ pySuffix (st ++ "_title.txt".toList) = ".txt".toList
      ∧ st ++ "_title.txt".toList ≠ st ++ ".txt".toList := by
  intro parent st hst
  have hok : ∀ (p : PyPath),
      mark_file_as_processed p (fun _ _ => .ok ()) = .ok (markTarget "_title".toList p) :=
    fun _ => rfl
  have h1 : markTarget "_title".toList ⟨parent, st ++ ".txt".toList⟩
      = ⟨parent, st ++ "_title.txt".toList⟩ := by
    rw [markTarget_txt parent st "_title".toList hst]
    have : ("_title".toList : PyStr) ++ ".txt".toList = "_title.txt".toList := by decide
    rw [List.append_assoc, this]
  have hst2 : st ++ "_title".toList ≠ [] := by
    intro hcontra
    have := congrArg List.length hcontra
    simp at this
  have hsplit2 : st ++ "_title.txt".toList
      = (st ++ "_title".toList) ++ ".txt".toList := by
    have : ("_title.txt".toList : PyStr) = "_title".toList ++ ".txt".toList := by decide
    rw [this, List.append_assoc]
  have h2 : markTarget "_title".toList ⟨parent, st ++ "_title.txt".toList⟩
      = ⟨parent, st ++ "_title_title.txt".toList⟩ := by
    rw [hsplit2, markTarget_txt parent (st ++ "_title".toList) "_title".toList hst2]
    have : ("_title".toList : PyStr) ++ "_title".toList ++ ".txt".toList
        = "_title_title.txt".toList := by decide
    rw [List.append_assoc, List.append_assoc, ← List.append_assoc "_title".toList, this]
  refine ⟨?_, ?_, ?_, ?_⟩
  · rw [hok, h1]
  · rw [hok, h2]
  · rw [hsplit2]
    have htxt : splitLastDot "txt".toList = none := by decide
    have hs : splitLastDot ((st ++ "_title".toList) ++ ".txt".toList)
        = some (st ++ "_title".toList, "txt".toList) := by
      exact splitLastDot_append (st ++ "_title".toList) "txt".toList htxt
    have hcond : ¬(st ++ "_title".toList = [] ∨ ("txt".toList : PyStr) = []) := by
      simp [hst2]
    simp only [pySuffix, hs, if_neg hcond]
    rfl
  · intro hcontra
    have := congrArg List.length hcontra
    simp at this

/-- Closed witness: marking `foo.txt` once and twice under an
always-succeeding rename. -/
theorem mark_file_as_processed_not_idempotent_witness :
    mark_file_as_processed ⟨"packages".toList, "foo".toList ++ ".txt".toList⟩
        (fun _ _ => .ok ())
      = .ok ⟨"packages".toList, "foo".toList ++ "_title.txt".toList⟩
    ∧ mark_file_as_processed ⟨"packages".toList, "foo".toList ++ "_title.txt".toList⟩
        (fun _ _ => .ok ())
      = .ok ⟨"packages".toList, "foo".toList ++ "_title_title.txt".toList⟩ :=
  ⟨(mark_file_as_processed_not_idempotent "packages".toList "foo".toList (by decide)).1,
   (mark_file_as_processed_not_idempotent "packages".toList "foo".toList (by decide)).2.1⟩

end Pipeline

namespace Pipeline

/-- Invariant of the upload retry loop: starting from a retry counter
within bounds and recorded sleep bounds within bounds, every backoff
sleep bound the run records stays at most `2 ^ MAX_RETRIES` and at most
`MAX_RETRIES` sleeps are recorded. -/
theorem resumableUploadGo_sleep_invariant (script : List ChunkOutcome) :
    ∀ (retry : Nat) (errorSet : Bool) (attempts : Nat) (sleeps : List Nat),
      retry ≤ MAX_RETRIES → (∀ b ∈ sleeps, b ≤ 2 ^ MAX_RETRIES) →
      sleeps.length ≤ retry →
      (∀ b ∈ (resumableUploadGo script retry errorSet attempts sleeps).sleepBounds,
          b ≤ 2 ^ MAX_RETRIES)
      ∧ (resumableUploadGo script retry errorSet attempts sleeps).sleepBounds.length
          ≤ MAX_RETRIES := by
  induction script with
  | nil =>
    intro retry errorSet attempts sleeps hr hb hl
    refine ⟨fun b hbm => hb b (List.mem_reverse.mp ?_), ?_⟩
    · simpa [resumableUploadGo] using hbm
    · simpa [resumableUploadGo] using hl.trans hr
  | cons o rest ih =>
    intro retry errorSet attempts sleeps hr hb hl
    have hbase : (∀ b ∈ sleeps.reverse, b ≤ 2 ^ MAX_RETRIES)
        ∧ sleeps.reverse.length ≤ MAX_RETRIES := by
      refine ⟨fun b hbm => hb b (List.mem_reverse.mp hbm), ?_⟩
      simpa using hl.trans hr
    have hstep : retry + 1 ≤ MAX_RETRIES →
        (∀ b ∈ (resumableUploadGo rest (retry + 1) true (attempts + 1)
            (2 ^ (retry + 1) :: sleeps)).sleepBounds, b ≤ 2 ^ MAX_RETRIES)
        ∧ (resumableUploadGo rest (retry + 1) true (attempts + 1)
            (2 ^ (retry + 1) :: sleeps)).sleepBounds.length ≤ MAX_RETRIES := by
      intro hr1
      refine ih (retry + 1) true (attempts + 1) (2 ^ (retry + 1) :: sleeps) hr1 ?_ ?_
      · intro b hbm
        rcases List.mem_cons.mp hbm with hb1 | hb1
        · subst hb1
          exact Nat.pow_le_pow_right (by norm_num) hr1
        · exact hb b hb1
      · simpa using Nat.succ_le_succ hl
    cases o with
    | chunk resp =>
      cases resp with
      | some r =>
        cases r with
        | withId i => simpa [resumableUploadGo] using hbase
        | withoutId => simpa [resumableUploadGo] using hbase
      | none =>
        cases errorSet with
        | false =>
          simpa only [resumableUploadGo, Bool.false_eq_true, if_false] using
            ih retry false (attempts + 1) sleeps hr hb hl
        | true =>
          by_cases hgt : retry + 1 > MAX_RETRIES
          · simpa [resumableUploadGo, hgt] using hbase
          · simpa [resumableUploadGo, hgt] using hstep (by omega)
    | httpError s =>
      by_cases hsr : s ∈ RETRIABLE_STATUS_CODES
      · by_cases hgt : retry + 1 > MAX_RETRIES
        · simpa [resumableUploadGo, hsr, hgt] using hbase
        · simpa [resumableUploadGo, hsr, hgt] using hstep (by omega)
      · simpa [resumableUploadGo, hsr] using hbase
    | retriableException =>
      by_cases hgt : retry + 1 > MAX_RETRIES
      · simpa [resumableUploadGo, hgt] using hbase
      · simpa [resumableUploadGo, hgt] using hstep (by omega)

/-- C3: on the chunk outcome sequence `[503, 503, success]` the resumable
upload makes exactly 3 attempts and returns the successful response on
the third, with backoff bounds `[2, 4] = [2^1, 2^2]` — exponentially
increasing; a non-retriable HTTP status propagates immediately after a
single attempt with no sleep; and in every run each backoff bound is
capped by `2 ^ MAX_RETRIES` with at most `MAX_RETRIES = 10` retries. -/
theorem resumable_upload_retry_policy :
    resumable_upload
        [.httpError 503, .httpError 503, .chunk (some (.withId "vid".toList))]
      = ⟨.success "vid".toList, 3, [2, 4]⟩
    ∧ (∀ (s : Nat) (rest : List ChunkOutcome), s ∉ RETRIABLE_STATUS_CODES →
        resumable_upload (.httpError s :: rest) = ⟨.httpFailure s, 1, []⟩)
    ∧ (∀ script : List ChunkOutcome,
        (∀ b ∈ (resumable_upload script).sleepBounds, b ≤ 2 ^ MAX_RETRIES)
        ∧ (resumable_upload script).sleepBounds.length ≤ MAX_RETRIES) := by
  refine ⟨by decide, ?_, ?_⟩
  · intro s rest hs
    simp [resumable_upload, resumableUploadGo, hs]
  · intro script
    exact resumableUploadGo_sleep_invariant script 0 false 0 []
      (by norm_num [MAX_RETRIES]) (by simp) (by simp)

/-- Closed witness for the retry-policy theorem: the non-retriable status
404 aborts after one attempt, and the first backoff bound of a retried
503 is within the cap. -/
theorem resumable_upload_retry_policy_witness :
    resumable_upload [.httpError 404] = ⟨.httpFailure 404, 1, []⟩
    ∧ (2 : Nat) ≤ 2 ^ MAX_RETRIES :=
  ⟨resumable_upload_retry_policy.2.1 404 [] (by decide),
   (resumable_upload_retry_policy.2.2
      [.httpError 503, .chunk (some (.withId "v".toList))]).1 2 (by decide)⟩

end Pipeline

namespace Pipeline

/-- Every sleep the polling loop executes is between 4 and 20
half-seconds (2 s and 10 s), given an in-range current interval. -/
theorem waitGo_sleeps_bounds (polls : List PollResult) :
    ∀ (tH e i : Nat) (sl : List Nat), 4 ≤ i → i ≤ 20 →
      (∀ s ∈ sl, 4 ≤ s ∧ s ≤ 20) →
      ∀ s ∈ (waitGo polls tH e i sl).sleeps, 4 ≤ s ∧ s ≤ 20 := by
  induction polls with
  | nil =>
    intro tH e i sl h4 h20 hsl s hs
    unfold waitGo at hs
    split at hs <;> simp only [List.mem_reverse] at hs <;> exact hsl s hs
  | cons p rest ih =>
    intro tH e i sl h4 h20 hsl s hs
    unfold waitGo at hs
    split at hs
    · cases p with
      | success du =>
        cases du <;> · simp only [List.mem_reverse] at hs; exact hsl s hs
      | failure => simp only [List.mem_reverse] at hs; exact hsl s hs
      | unknown => simp only [List.mem_reverse] at hs; exact hsl s hs
      | processing =>
        refine ih tH (e + i) _ (i :: sl) ?_ ?_ ?_ s hs
        · split <;> omega
        · split <;> omega
        · intro t ht
          rcases List.mem_cons.mp ht with ht1 | ht1
          · subst ht1; exact ⟨h4, h20⟩
          · exact hsl t ht1
      | checkFailed =>
        refine ih tH (e + i) i (i :: sl) h4 h20 ?_ s hs
        intro t ht
        rcases List.mem_cons.mp ht with ht1 | ht1
        · subst ht1; exact ⟨h4, h20⟩
        · exact hsl t ht1
    · simp only [List.mem_reverse] at hs
      exact hsl s hs

/-- If every poll is still in progress (or a swallowed status-check
failure) and there are at least enough polls, the loop's wall-clock
budget runs out: each iteration adds at least 4 half-seconds. -/
theorem waitGo_timeout (polls : List PollResult) :
    ∀ (tH e i : Nat) (sl : List Nat), 4 ≤ i →
      (∀ p ∈ polls, p = PollResult.processing ∨ p = PollResult.checkFailed) →
      tH ≤ e + 4 * polls.length →
      (waitGo polls tH e i sl).outcome = WaitOutcome.timedOut := by
  induction polls with
  | nil =>
    intro tH e i sl h4 hall hle
    simp only [List.length_nil, Nat.mul_zero, Nat.add_zero] at hle
    unfold waitGo
    rw [if_neg (by omega)]
  | cons p rest ih =>
    intro tH e i sl h4 hall hle
    unfold waitGo
    by_cases he : e < tH
    · rw [if_pos he]
      rcases hall p (List.mem_cons_self _ _) with hp | hp <;> subst hp
      · show (waitGo rest tH (e + i)
            (if i < 20 then min (i + 1) 20 else i) (i :: sl)).outcome = _
        refine ih tH (e + i) _ (i :: sl) ?_
          (fun q hq => hall q (List.mem_cons_of_mem _ hq)) ?_
        · split <;> omega
        · simp only [List.length_cons] at hle ⊢
          omega
      · show (waitGo rest tH (e + i) i (i :: sl)).outcome = _
        refine ih tH (e + i) i (i :: sl) h4
          (fun q hq => hall q (List.mem_cons_of_mem _ hq)) ?_
        simp only [List.length_cons] at hle ⊢
        omega
    · rw [if_neg he]

/-- C7: the CleanVoice polling loop sleeps 2 s first (4 half-seconds),
grows the interval by half a second per in-progress poll, returns the
download URL on terminal `SUCCESS`; every sleep in every run lies
between 2 s and the 10 s cap; and when no terminal status arrives in
time (at least `timeout` in-progress polls within a `timeout`-second
budget) the loop ends in the timeout error instead of returning. -/
theorem wait_for_completion_polling_policy :
    wait_for_completion [.processing, .processing, .success (some "url".toList)] 1800
      = ⟨.downloadUrl "url".toList, [4, 5]⟩
    ∧ (∀ (polls : List PollResult) (timeout : Nat),
        ∀ s ∈ (wait_for_completion polls timeout).sleeps, 4 ≤ s ∧ s ≤ 20)
    ∧ (∀ (polls : List PollResult) (timeout : Nat),
        (∀ p ∈ polls, p = PollResult.processing ∨ p = PollResult.checkFailed) →
        timeout ≤ polls.length →
        (wait_for_completion polls timeout).outcome = WaitOutcome.timedOut) := by
  refine ⟨by decide, ?_, ?_⟩
  · intro polls timeout s hs
    exact waitGo_sleeps_bounds polls (2 * timeout) 0 4 []
      (by norm_num) (by norm_num) (by simp) s hs
  · intro polls timeout hall hlen
    exact waitGo_timeout polls (2 * timeout) 0 4 [] (by norm_num) hall (by omega)

/-- Closed witness for the polling-policy theorem: a concrete sleep from
a finished run is within bounds, and two in-progress polls against a
2-second budget end in timeout. -/
theorem wait_for_completion_polling_policy_witness :
    (4 ≤ 4 ∧ 4 ≤ 20)
    ∧ (wait_for_completion [.processing, .processing] 1).outcome
        = WaitOutcome.timedOut :=
  ⟨wait_for_completion_polling_policy.2.1
      [.processing, .success (some "u".toList)] 1800 4 (by decide),
   wait_for_completion_polling_policy.2.2 [.processing, .processing] 1
      (by decide) (by decide)⟩

end Pipeline

namespace Pipeline

/-- Any dict the fallback loop returns was parsed from one of the brace
matches. -/
theorem firstDictMatch_sound (ms : List PyStr) :
    ∀ d, firstDictMatch ms = some d → ∃ m ∈ ms, pyEvalLiteral m = some (.dict d) := by
  induction ms with
  | nil =>
    intro d h
    simp [firstDictMatch] at h
  | cons m ms ih =>
    intro d h
    unfold firstDictMatch at h
    cases hm : pyEvalLiteral m with
    | none =>
      rw [hm] at h
      rcases ih d h with ⟨m2, hm1, hm2⟩
      exact ⟨m2, List.mem_cons_of_mem _ hm1, hm2⟩
    | some v =>
      rw [hm] at h
      cases v with
      | str s =>
        rcases ih d h with ⟨m2, hm1, hm2⟩
        exact ⟨m2, List.mem_cons_of_mem _ hm1, hm2⟩
      | tuple l =>
        rcases ih d h with ⟨m2, hm1, hm2⟩
        exact ⟨m2, List.mem_cons_of_mem _ hm1, hm2⟩
      | dict d2 =>
        have h3 : (some d2 : Option (List (PyVal × PyVal))) = some d := h
        injection h3 with h3
        exact ⟨m, List.mem_cons_self _ _, by rw [hm, h3]⟩

/-- C4: on the model response holding `\x7b"seg1": ("00:10", "00:20")\x7d`
inside ```` ```python ```` fences, `_extract_dictionary` returns the
in-memory mapping with the fences stripped; on a response with no
parsable dictionary it returns `None`; and in general every returned
mapping comes from an actual parse of the fence-stripped text or one of
its brace spans — never from a substituted default. -/
theorem extract_dictionary_literal_scenario :
    extract_dictionary "```python\n\x7b\"seg1\": (\"00:10\", \"00:20\")\x7d\n```".toList
      = some [(.str "seg1".toList, .tuple [.str "00:10".toList, .str "00:20".toList])]
    ∧ extract_dictionary "The model refused.".toList = none
    ∧ (∀ (text : PyStr) (d : List (PyVal × PyVal)), extract_dictionary text = some d →
        pyEvalLiteral (fenceStripped text) = some (.dict d)
        ∨ ∃ m ∈ braceMatches (fenceStripped text), pyEvalLiteral m = some (.dict d)) := by
  refine ⟨rfl, rfl, ?_⟩
  intro text d h
  simp only [extract_dictionary] at h
  cases hev : pyEvalLiteral (fenceStripped text) with
  | none =>
    rw [hev] at h
    exact Or.inr (firstDictMatch_sound _ d h)
  | some v =>
    rw [hev] at h
    cases v with
    | str s => exact Or.inr (firstDictMatch_sound _ d h)
    | tuple l => exact Or.inr (firstDictMatch_sound _ d h)
    | dict d2 =>
      have h3 : (some d2 : Option (List (PyVal × PyVal))) = some d := h
      injection h3 with h3
      exact Or.inl (by rw [h3])

/-- Closed witness for the extraction theorem: the fenced literal input
satisfies the provenance disjunction. -/
theorem extract_dictionary_literal_scenario_witness :
    pyEvalLiteral
        (fenceStripped "```python\n\x7b\"seg1\": (\"00:10\", \"00:20\")\x7d\n```".toList)
      = some (.dict [(.str "seg1".toList,
          .tuple [.str "00:10".toList, .str "00:20".toList])])
    ∨ ∃ m ∈ braceMatches
        (fenceStripped "```python\n\x7b\"seg1\": (\"00:10\", \"00:20\")\x7d\n```".toList),
        pyEvalLiteral m = some (.dict [(.str "seg1".toList,
          .tuple [.str "00:10".toList, .str "00:20".toList])]) :=
  extract_dictionary_literal_scenario.2.2
    "```python\n\x7b\"seg1\": (\"00:10\", \"00:20\")\x7d\n```".toList
    [(.str "seg1".toList, .tuple [.str "00:10".toList, .str "00:20".toList])]
    (by rfl)

end Pipeline

namespace Pipeline

/-- C8 counterexample: with `GEMINI_API_KEY` absent, the timestamps
extractor's `main` does exit 1 without touching network or filesystem,
but it reports the configuration error with plain `print` — stdout, not
stderr as claimed: its event trace contains no stderr print at all. -/
theorem ts_extractor_missing_key_reports_on_stdout :
    (ts_extractor_main none (some "key".toList) []).filter isStderrPrint = []
    ∧ Event.exitEvent 1 ∈ ts_extractor_main none (some "key".toList) []
    ∧ Event.print Channel.stdout
        "Error: GEMINI_API_KEY not found in .env file".toList
      ∈ ts_extractor_main none (some "key".toList) [] := by
  refine ⟨rfl, ?_, ?_⟩ <;> decide

/-- C8 (amended): with a required API key absent, each cited stage entry
point exits with code 1 before any network call or filesystem mutation
and reports the configuration error on the console — the timestamps
extractor on stdout, the titles generator on stderr. -/
theorem missing_api_key_exit_behavior :
    (∀ (assemblyai : Option PyStr) (pipeline : List Event),
        (ts_extractor_main none assemblyai pipeline).filter isWorkEvent = []
        ∧ Event.exitEvent 1 ∈ ts_extractor_main none assemblyai pipeline)
    ∧ (∀ (g : PyStr) (pipeline : List Event),
        (ts_extractor_main (some g) none pipeline).filter isWorkEvent = []
        ∧ Event.exitEvent 1 ∈ ts_extractor_main (some g) none pipeline)
    ∧ (∀ (apiKeyArg geminiEnv : Option PyStr) (pipeline : List Event),
        truthy (pyOrStr apiKeyArg geminiEnv) = false →
        titles_generator_main apiKeyArg geminiEnv pipeline
          = [Event.print Channel.stderr
               "Error: Google Gemini API key required.".toList,
             Event.exitEvent 1]) := by
  refine ⟨?_, ?_, ?_⟩
  · intro assemblyai pipeline
    exact ⟨rfl, by simp [ts_extractor_main]⟩
  · intro g pipeline
    exact ⟨rfl, by simp [ts_extractor_main]⟩
  · intro apiKeyArg geminiEnv pipeline hfalsy
    simp [titles_generator_main, hfalsy]

/-- Closed witness: neither a CLI key nor the environment variable set
makes the titles generator print to stderr and exit 1. -/
theorem missing_api_key_exit_behavior_witness :
    titles_generator_main none none []
      = [Event.print Channel.stderr
           "Error: Google Gemini API key required.".toList,
         Event.exitEvent 1] :=
  missing_api_key_exit_behavior.2.2 none none [] (by decide)

/-- C9: `upload_video` always sends the body built by
`upload_video_body`, whose title and description are `title[:100]` and
`description[:5000]` — length-capped prefixes of the inputs, unchanged
when already within the limit — and this body is the same whatever the
network does (it is fixed before any chunk is sent). -/
theorem upload_video_truncates_metadata :
    ∀ (title description : PyStr) (tags : List PyStr)
      (categoryId privacyStatus : PyStr) (script : List ChunkOutcome),
      (upload_video true title description tags categoryId privacyStatus script).2
        = some (upload_video_body title description tags categoryId privacyStatus)
      ∧ (upload_video_body title description tags categoryId privacyStatus).snippet.title
          = title.take 100
      ∧ (upload_video_body title description tags categoryId
          privacyStatus).snippet.description = description.take 5000
      ∧ (title.take 100).length ≤ 100
      ∧ (description.take 5000).length ≤ 5000
      ∧ (title.take 100) <+: title
      ∧ (description.take 5000) <+: description
      ∧ (title.length ≤ 100 → title.take 100 = title)
      ∧ (description.length ≤ 5000 → description.take 5000 = description) := by
  intro title description tags categoryId privacyStatus script
  refine ⟨?_, rfl, rfl, ?_, ?_, ?_, ?_, ?_, ?_⟩
  · unfold upload_video
    rw [if_pos rfl]
    split <;> rfl
  · simp only [List.length_take]
    omega
  · simp only [List.length_take]
    omega
  · exact List.take_prefix 100 title
  · exact List.take_prefix 5000 description
  · intro hlen
    exact List.take_of_length_le hlen
  · intro hlen
    exact List.take_of_length_le hlen

/-- Closed witness for the truncation theorem: a short title and
description pass through unchanged. -/
theorem upload_video_truncates_metadata_witness :
    ("My video".toList : PyStr).take 100 = "My video".toList
    ∧ ("A description".toList : PyStr).take 5000 = "A description".toList :=
  ⟨(upload_video_truncates_metadata "My video".toList "A description".toList []
      "22".toList "private".toList []).2.2.2.2.2.2.2.1 (by decide),
   (upload_video_truncates_metadata "My video".toList "A description".toList []
      "22".toList "private".toList []).2.2.2.2.2.2.2.2 (by decide)⟩

end Pipeline
